import Mathlib

/-!
Verification development for the sbdb core module (`src/sbdb/sets.py`):
design-variable expansion (`DesignVariableSet`), object-set generation
(`ObjectSet`), and cross-dataset verification (`VerifiedObjectLibrary`).

Python scalar values are modelled by `PyVal`: strings, exact rationals
standing for Python ints/floats, and a distinguished `nan` (float NaN).
Python `==` is modelled by `pyEq`: `nan` compares unequal to everything
(itself included), and values of different kinds compare unequal.
`round(x, n)` is modelled by rounding the rational exactly; Python
float ties (round-half-even on the binary representation) do not arise
at the concrete values used below.
-/

namespace Sbdb

/-- Model of a Python scalar cell value: a string, a number (int/float,
modelled exactly as a rational), or float NaN. -/
inductive PyVal where
  | str : String → PyVal
  | num : ℚ → PyVal
  | nan : PyVal
deriving DecidableEq, Repr

/-- Python `==` on scalar values: `nan` is unequal to everything (itself
included), strings compare by content, numbers by value, and a string
never equals a number. -/
def pyEq : PyVal → PyVal → Bool
  | PyVal.str a, PyVal.str b => a == b
  | PyVal.num a, PyVal.num b => a == b
  | _, _ => false

/-- Whether a value is a Python `str` (models `type(v) is str`). -/
def isStr : PyVal → Bool
  | PyVal.str _ => true
  | _ => false

/-- Model of Python `round(x, 3)` on an exact rational. -/
def round3 (q : ℚ) : ℚ := (round (q * 1000) : ℤ) / 1000

/-- Model of Python `round(x, 2)` on an exact rational. -/
def round2 (q : ℚ) : ℚ := (round (q * 100) : ℤ) / 100

/-- Model of `VerifiedObjectLibrary.error_calc` (sets.py lines 332-360).
The `c`/`param` arguments of the source are unused there and omitted.
Arithmetic on NaN yields NaN, as for Python floats; `float(s)` applied
to a string raises in the relevant cases (a non-numeric string), which
is modelled as an error. -/
def error_calc (generated_value verify_value : PyVal) : Except String PyVal :=
  if isStr generated_value then
    Except.ok (if pyEq generated_value verify_value then PyVal.str "match"
               else PyVal.str "not match")
  else if pyEq verify_value (PyVal.num 0) then
    Except.ok
      (if pyEq verify_value generated_value then PyVal.num 0
       else
         match generated_value with
         | PyVal.num x => PyVal.num (x / x * 100)
         | _ => PyVal.nan)
  else
    match generated_value, verify_value with
    | PyVal.nan, _ => Except.ok PyVal.nan
    | _, PyVal.nan => Except.ok PyVal.nan
    | PyVal.num x, PyVal.num y => Except.ok (PyVal.num (round3 ((x - y) / y * 100)))
    | _, _ => Except.error "ValueError: could not convert string to float"

/-!
DesignVariableSet (sets.py lines 19-102).

`design_var_sets` is a Python dict, which iterates in insertion order; it
is modelled as an association list `List (String × List α)` of variable
name and value sequence, in declared order.  `read_design_variable_set`
computes `itertools.product(*data.values())` and zips each tuple with the
key list.  `itertools.product` iterates odometer-style with the last
iterable cycling fastest, and with no iterables at all it yields exactly
one empty tuple (the nullary product) — hence the `[[]]` base case.
-/

/-- The order and content of `itertools.product(*ls)`: for the first list,
each value heads a contiguous block of the recursive product of the rest. -/
def cartesian_product {α : Type} : List (List α) → List (List α)
  | [] => [[]]
  | l :: ls => l.flatMap (fun v => (cartesian_product ls).map (fun d => v :: d))

/-- Model of `DesignVariableSet.read_design_variable_set` (sets.py lines
37-49): the Cartesian product of the value sequences, each tuple zipped
with the declared key list into a name-to-value record. -/
def read_design_variable_set {α : Type} (data : List (String × List α)) :
    List (List (String × α)) :=
  (cartesian_product (data.map Prod.snd)).map (fun d => (data.map Prod.fst).zip d)

/-- Product of the lengths of the value lists: the expected expansion size. -/
def sizeProd {α : Type} (ls : List (List α)) : ℕ := (ls.map List.length).prod

/-- Mixed-radix (odometer) encoding of an index tuple, rightmost digit
fastest: the flat position that the selected combination should occupy. -/
def encode {α : Type} : List (List α) → List ℕ → ℕ
  | _, [] => 0
  | [], _ => 0
  | _ :: ls, j :: js => j * sizeProd ls + encode ls js


/-- The combination selected by an index tuple: the j-th value of each list. -/
def select {α : Type} [Inhabited α] : List (List α) → List ℕ → List α
  | _, [] => []
  | [], _ => []
  | l :: ls, j :: js => l.getD j default :: select ls js


/-- Validity of an index tuple for a list of value lists: same length,
each index within range. -/
def ValidIdx {α : Type} (ls : List (List α)) (js : List ℕ) : Prop :=
  List.Forall₂ (fun j l => j < l.length) js ls

theorem length_cartesian_product {α : Type} (ls : List (List α)) :
    (cartesian_product ls).length = sizeProd ls := by
  induction ls with
  | nil => rfl
  | cons l ls ih =>
      simp only [cartesian_product, sizeProd, List.map_cons, List.prod_cons, List.flatMap,
        List.length_flatten, List.map_map, Function.comp_def, List.length_map]
      rw [List.map_const', List.sum_replicate, smul_eq_mul, ih, sizeProd]

theorem encode_lt {α : Type} {ls : List (List α)} {js : List ℕ}
    (h : ValidIdx ls js) : encode ls js < sizeProd ls := by
  induction h with
  | nil => simp [encode, sizeProd]
  | @cons j l js ls hjl _ ih =>
      have h1 : encode (l :: ls) (j :: js) = j * sizeProd ls + encode ls js := rfl
      have h2 : sizeProd (l :: ls) = l.length * sizeProd ls := by
        simp [sizeProd]
      rw [h1, h2]
      calc j * sizeProd ls + encode ls js
          < j * sizeProd ls + sizeProd ls := by omega
        _ = (j + 1) * sizeProd ls := by ring
        _ ≤ l.length * sizeProd ls := Nat.mul_le_mul_right _ hjl

theorem getElem?_flatMap_uniform {α β : Type} (l : List α) (f : α → List β) (S j e : ℕ)
    (hS : ∀ a ∈ l, (f a).length = S) (he : e < S) :
    (l.flatMap f)[j * S + e]? = l[j]?.bind (fun a => (f a)[e]?) := by
  induction l generalizing j with
  | nil => simp
  | cons a l ih =>
      have ha : (f a).length = S := hS a (List.mem_cons_self a l)
      cases j with
      | zero =>
          simp only [Nat.zero_mul, Nat.zero_add, List.flatMap_cons]
          rw [List.getElem?_append_left (by omega)]
          simp
      | succ j =>
          simp only [List.flatMap_cons]
          rw [List.getElem?_append_right (by rw [ha, Nat.succ_mul]; omega)]
          have harith : (j + 1) * S + e - (f a).length = j * S + e := by
            rw [ha, Nat.succ_mul]; omega
          rw [harith, ih j (fun a ha => hS a (List.mem_cons_of_mem _ ha))]
          simp

theorem cartesian_product_getElem? {α : Type} [Inhabited α]
    {ls : List (List α)} {js : List ℕ} (h : ValidIdx ls js) :
    (cartesian_product ls)[encode ls js]? = some (select ls js) := by
  induction h with
  | nil => rfl
  | @cons j l js ls hjl hrest ih =>
      have hblock : ∀ v ∈ l, ((cartesian_product ls).map (fun d => v :: d)).length
          = sizeProd ls := by
        intro v _
        rw [List.length_map, length_cartesian_product]
      have hE : encode (l :: ls) (j :: js) = j * sizeProd ls + encode ls js := rfl
      have hcart : cartesian_product (l :: ls)
          = l.flatMap (fun v => (cartesian_product ls).map (fun d => v :: d)) := rfl
      rw [hE, hcart, getElem?_flatMap_uniform l _ (sizeProd ls) j (encode ls js)
        hblock (encode_lt hrest)]
      have hj : l[j]? = some (l.getD j default) := by
        rw [List.getElem?_eq_getElem hjl, List.getD_eq_getElem l default hjl]
      rw [hj]
      simp only [Option.bind_some, List.getElem?_map, ih, Option.map_some]
      rfl

theorem length_of_mem_cartesian_product {α : Type} {ls : List (List α)}
    {c : List α} (h : c ∈ cartesian_product ls) : c.length = ls.length := by
  induction ls generalizing c with
  | nil =>
      simp only [cartesian_product, List.mem_singleton] at h
      simp [h]
  | cons l ls ih =>
      simp only [cartesian_product, List.mem_flatMap, List.mem_map] at h
      obtain ⟨v, _, d, hd, rfl⟩ := h
      simp [ih hd]

theorem nodup_cartesian_product {α : Type} {ls : List (List α)}
    (h : ∀ l ∈ ls, l.Nodup) : (cartesian_product ls).Nodup := by
  induction ls with
  | nil => simp [cartesian_product]
  | cons l ls ih =>
      have hl : l.Nodup := h l (List.mem_cons_self l ls)
      have hrest : (cartesian_product ls).Nodup :=
        ih (fun x hx => h x (List.mem_cons_of_mem _ hx))
      simp only [cartesian_product]
      rw [List.nodup_flatMap]
      refine ⟨fun v _ => hrest.map (fun d d' hdd => by injection hdd), ?_⟩
      refine hl.imp ?_
      intro v w hvw
      rw [Function.onFun, List.disjoint_left]
      rintro x hx hx'
      simp only [List.mem_map] at hx hx'
      obtain ⟨d, _, rfl⟩ := hx
      obtain ⟨d', _, hcons⟩ := hx'
      exact hvw (by injection hcons with h1 _; exact h1.symm)

theorem select_mem_cartesian_product {α : Type} [Inhabited α]
    {ls : List (List α)} {js : List ℕ} (h : ValidIdx ls js) :
    select ls js ∈ cartesian_product ls :=
  List.getElem?_mem (cartesian_product_getElem? h)

theorem nodup_read_design_variable_set {α : Type}
    (data : List (String × List α)) (hnd : ∀ p ∈ data, p.2.Nodup) :
    (read_design_variable_set data).Nodup := by
  have hcart : (cartesian_product (data.map Prod.snd)).Nodup := by
    refine nodup_cartesian_product ?_
    intro l hl
    simp only [List.mem_map] at hl
    obtain ⟨p, hp, rfl⟩ := hl
    exact hnd p hp
  refine List.Nodup.map_on ?_ hcart
  intro x hx y hy hxy
  have hlx : x.length = data.length := by
    have := length_of_mem_cartesian_product hx
    simpa using this
  have hly : y.length = data.length := by
    have := length_of_mem_cartesian_product hy
    simpa using this
  have h1 : List.map Prod.snd ((data.map Prod.fst).zip x) = x :=
    List.map_snd_zip _ _ (by simp [hlx])
  have h2 : List.map Prod.snd ((data.map Prod.fst).zip y) = y :=
    List.map_snd_zip _ _ (by simp [hly])
  rw [← h1, ← h2, hxy]

theorem count_eq_one_of_nodup_mem {β : Type} [BEq β] [LawfulBEq β] {l : List β} {a : β}
    (hn : l.Nodup) (ha : a ∈ l) : l.count a = 1 := by
  induction l with
  | nil => simp at ha
  | cons b l ih =>
      rcases List.mem_cons.mp ha with h | h
      · subst h
        rw [List.count_cons_self]
        rw [List.count_eq_zero.mpr (List.nodup_cons.mp hn).1]
      · have hne : a ≠ b := by
          rintro rfl
          exact (List.nodup_cons.mp hn).1 h
        rw [List.count_cons_of_ne hne]
        exact ih (List.nodup_cons.mp hn).2 h

/-- C1 (amended): for every mapping of variable names to non-empty,
duplicate-free value sequences, the expansion produced on construction of a
DesignVariableSet is the full Cartesian product: its length equals the
product of the value-sequence lengths; the order is odometer order over the
declared variable order with the rightmost-declared variable cycling fastest
(the record for index tuple `js` sits at the mixed-radix position
`encode`, carrying the selected value of each variable in declared order);
and every such combination appears exactly once as a name-to-value record. -/
theorem read_design_variable_set_cartesian {α : Type} [Inhabited α] [DecidableEq α]
    (data : List (String × List α))
    (_hne : ∀ p ∈ data, p.2 ≠ [])
    (hnd : ∀ p ∈ data, p.2.Nodup) :
    (read_design_variable_set data).length = (data.map (fun p => p.2.length)).prod
    ∧ ∀ js, ValidIdx (data.map Prod.snd) js →
        (read_design_variable_set data)[encode (data.map Prod.snd) js]?
            = some ((data.map Prod.fst).zip (select (data.map Prod.snd) js))
        ∧ (read_design_variable_set data).count
              ((data.map Prod.fst).zip (select (data.map Prod.snd) js)) = 1 := by
  refine ⟨?_, fun js hjs => ⟨?_, ?_⟩⟩
  · rw [read_design_variable_set, List.length_map, length_cartesian_product]
    simp [sizeProd, List.map_map, Function.comp_def]
  · rw [read_design_variable_set, List.getElem?_map, cartesian_product_getElem? hjs]
    rfl
  · refine count_eq_one_of_nodup_mem (nodup_read_design_variable_set data hnd) ?_
    exact List.mem_map_of_mem _ (select_mem_cartesian_product hjs)

/-- Witness for C1: two variables with sizes 2 and 1 give an expansion of
length 2, and index tuple (1, 0) sits at flat position 1 carrying record
a = 2, b = 10, exactly once. -/
theorem read_design_variable_set_cartesian_witness :
    (read_design_variable_set [("a", [1, 2]), ("b", [10])]).length = 2
    ∧ (read_design_variable_set [("a", [1, 2]), ("b", [10])])[1]?
        = some [("a", 2), ("b", 10)]
    ∧ (read_design_variable_set [("a", [1, 2]), ("b", [10])]).count
        [("a", (2 : ℕ)), ("b", 10)] = 1 := by
  have h := read_design_variable_set_cartesian (α := ℕ) [("a", [1, 2]), ("b", [10])]
    (by decide) (by decide)
  have hjs : ValidIdx (List.map Prod.snd [("a", [1, 2]), ("b", [10])]) [1, 0] := by
    refine List.Forall₂.cons ?_ (List.Forall₂.cons ?_ List.Forall₂.nil) <;> decide
  have h2 := h.2 [1, 0] hjs
  refine ⟨by simpa using h.1, ?_, ?_⟩
  · have := h2.1
    simpa using this
  · have := h2.2
    simpa using this

/-- C1 counterexample: the value sequence [1, 1] is non-empty, yet the
record assigning 1 to "a" occurs twice in the expansion, not exactly once. -/
theorem read_design_variable_set_duplicate_counterexample :
    (∀ p ∈ [("a", [1, 1])], p.2 ≠ ([] : List ℕ))
    ∧ (read_design_variable_set [("a", [1, 1])]).count [("a", 1)] = 2 := by
  exact ⟨by decide, by decide⟩

/-- C7 counterexample: constructing a DesignVariableSet from an empty
variables mapping yields a param_list of length 1, not an empty sequence:
the nullary Cartesian product contains one empty record. -/
theorem read_design_variable_set_empty_counterexample :
    (read_design_variable_set ([] : List (String × List ℕ))).length ≠ 0 := by
  decide

/-- C7 (amended): constructing a DesignVariableSet from an empty variables
mapping succeeds and yields an expansion holding exactly one record, the
empty record (`itertools.product()` yields a single empty tuple). -/
theorem read_design_variable_set_empty :
    read_design_variable_set ([] : List (String × List ℕ)) = [[]] := rfl

/-!
ObjectSet (sets.py lines 105-195).

The user-supplied `reference_class` is modelled as a factory `Param →
Except String Obj` (a raising constructor call), and attribute access
`hasattr`/`getattr` as `Obj → String → Option PyVal` (None standing for a
missing attribute).  A pandas DataFrame built by `df.loc[len(df)] = row`
is a column list plus row list with positional index `0 .. rows-1`; it is
modelled by `DF`.  The `print` progress output has no effect on results
and is not modelled.
-/

/-- Minimal model of a pandas DataFrame with a default RangeIndex: named
columns and positionally indexed rows. -/
structure DF where
  cols : List String
  rows : List (List PyVal)
deriving DecidableEq, Repr

/-- Result triple of `ObjectSet.generate_object_set`: the produced object
list, the object-library table, and the skipped input indices. -/
structure GenOutcome (Obj : Type) where
  obj_set : List Obj
  table : DF
  skipped_indices : List ℕ
deriving DecidableEq, Repr

/-- The generation loop of `generate_object_set` (sets.py lines 141-158),
started at input index `i`.  The source appends the instance to
`obj_set` before projecting the report attributes, so an instance whose
projection later fails stays in `obj_set` while its index is recorded in
`skipped_indices`. -/
def genLoop {Param Obj : Type} (reference_class : Param → Except String Obj)
    (getAttr : Obj → String → Option PyVal) (report_attrs : List String) :
    List Param → ℕ → List Obj × List (List PyVal) × List ℕ
  | [], _ => ([], [], [])
  | p :: ps, i =>
    let rest := genLoop reference_class getAttr report_attrs ps (i + 1)
    match reference_class p with
    | Except.error _ => (rest.1, rest.2.1, i :: rest.2.2)
    | Except.ok p_instance =>
      match report_attrs.mapM (getAttr p_instance) with
      | some attr_value_list =>
          (p_instance :: rest.1, attr_value_list :: rest.2.1, rest.2.2)
      | none => (p_instance :: rest.1, rest.2.1, i :: rest.2.2)

/-- Appending a column to a DataFrame by `df[name] = values`: pandas
requires the value list to have exactly one entry per row. -/
def df_assign_column (df : DF) (name : String) (values : List PyVal) :
    Except String DF :=
  if values.length = df.rows.length then
    Except.ok ⟨df.cols ++ [name],
      (df.rows.zip values).map (fun rv => rv.1 ++ [rv.2])⟩
  else
    Except.error "ValueError: Length of values does not match length of index"

/-- Model of `ObjectSet.generate_object_set` (sets.py lines 126-169): run
the tolerant generation loop from index 0, then, when a `value_fn` list is
attached, append it as the `value_fn` column (which raises on a length
mismatch, outside the per-record try/except). -/
def generate_object_set {Param Obj : Type} (reference_class : Param → Except String Obj)
    (getAttr : Obj → String → Option PyVal) (report_attrs : List String)
    (param_list : List Param) (value_fn : Option (List PyVal)) :
    Except String (GenOutcome Obj) :=
  let out := genLoop reference_class getAttr report_attrs param_list 0
  let df : DF := ⟨report_attrs, out.2.1⟩
  match value_fn with
  | none => Except.ok ⟨out.1, df, out.2.2⟩
  | some vf => do
      let df2 ← df_assign_column df "value_fn" vf
      Except.ok ⟨out.1, df2, out.2.2⟩

/-- Model of `ObjectSet.reduce_design_space` (sets.py lines 171-184): the
query selects the DataFrame index labels (positional, `0 .. rows-1`) of
the matching table rows; those positions are deleted from `param_list`
(and from `value_fn` when attached) from highest to lowest, and the
object set is regenerated from the reduced list.  The pandas query string
is modelled as a Boolean predicate on a row. -/
def reduce_design_space {Param Obj : Type} (reference_class : Param → Except String Obj)
    (getAttr : Obj → String → Option PyVal) (report_attrs : List String)
    (param_list : List Param) (value_fn : Option (List PyVal))
    (object_library : DF) (query : List PyVal → Bool) :
    Except String (List Param × Option (List PyVal) × GenOutcome Obj) := do
  let remove_me := (List.range object_library.rows.length).filter
    (fun i => query (object_library.rows.getD i []))
  let param_list2 := remove_me.reverse.foldl (fun l i => l.eraseIdx i) param_list
  let value_fn2 := value_fn.map
    (fun vf => remove_me.reverse.foldl (fun l i => l.eraseIdx i) vf)
  let out ← generate_object_set reference_class getAttr report_attrs param_list2 value_fn2
  Except.ok (param_list2, value_fn2, out)

/-- Whether an `Except` value is a success (a factory call that did not
raise). -/
def exceptOk {ε β : Type} : Except ε β → Bool
  | Except.ok _ => true
  | Except.error _ => false

/-- The zero-based input indices whose factory invocation raises. -/
def failedIndices {Param Obj : Type} (reference_class : Param → Except String Obj)
    (param_list : List Param) : List ℕ :=
  ((List.enumFrom 0 param_list).filter
    (fun x => !(exceptOk (reference_class x.2)))).map Prod.fst

/-- Whether, for one parameter record, attribute projection succeeds
whenever the factory call does: a raising factory call is vacuously fine. -/
def projectionOk {Obj : Type} (getAttr : Obj → String → Option PyVal)
    (report_attrs : List String) : Except String Obj → Bool
  | Except.error _ => true
  | Except.ok obj => (report_attrs.mapM (getAttr obj)).isSome

theorem filter_not_length {α : Type} (P : α → Bool) (l : List α) :
    (l.filter P).length + (l.filter (fun a => !(P a))).length = l.length := by
  induction l with
  | nil => rfl
  | cons a l ih =>
      cases h : P a <;> simp [List.filter_cons, h] <;> omega

theorem genLoop_spec {Param Obj : Type} (rc : Param → Except String Obj)
    (ga : Obj → String → Option PyVal) (attrs : List String)
    (ps : List Param) (i : ℕ)
    (hproj : ∀ p ∈ ps, projectionOk ga attrs (rc p) = true) :
    (genLoop rc ga attrs ps i).2.2
        = ((ps.enumFrom i).filter (fun x => !(exceptOk (rc x.2)))).map Prod.fst
    ∧ (genLoop rc ga attrs ps i).2.1.length
        = (ps.filter (fun p => exceptOk (rc p))).length
    ∧ (genLoop rc ga attrs ps i).1.length
        = (ps.filter (fun p => exceptOk (rc p))).length := by
  induction ps generalizing i with
  | nil => exact ⟨rfl, rfl, rfl⟩
  | cons p ps ih =>
      have hp := hproj p (List.mem_cons_self p ps)
      have ihp := ih (i + 1) (fun q hq => hproj q (List.mem_cons_of_mem _ hq))
      cases hrc : rc p with
      | error e =>
          have hgl : genLoop rc ga attrs (p :: ps) i
              = ((genLoop rc ga attrs ps (i + 1)).1,
                 (genLoop rc ga attrs ps (i + 1)).2.1,
                 i :: (genLoop rc ga attrs ps (i + 1)).2.2) := by
            simp [genLoop, hrc]
          rw [hgl]
          refine ⟨?_, ?_, ?_⟩
          · simp only [List.enumFrom, List.filter_cons, hrc]
            simp [exceptOk, ihp.1]
          · simp [List.filter_cons, hrc, exceptOk, ihp.2.1]
          · simp [List.filter_cons, hrc, exceptOk, ihp.2.2]
      | ok obj =>
          have hmap : (attrs.mapM (ga obj)).isSome = true := by
            rw [hrc] at hp
            simpa [projectionOk] using hp
          obtain ⟨row, hrow⟩ := Option.isSome_iff_exists.mp hmap
          have hgl : genLoop rc ga attrs (p :: ps) i
              = (obj :: (genLoop rc ga attrs ps (i + 1)).1,
                 row :: (genLoop rc ga attrs ps (i + 1)).2.1,
                 (genLoop rc ga attrs ps (i + 1)).2.2) := by
            simp only [genLoop, hrc, hrow]
          rw [hgl]
          refine ⟨?_, ?_, ?_⟩
          · simp only [List.enumFrom, List.filter_cons, hrc]
            simp [exceptOk, ihp.1]
          · simp [List.filter_cons, hrc, exceptOk, ihp.2.1]
          · simp [List.filter_cons, hrc, exceptOk, ihp.2.2]

theorem enumFrom_filter_snd_length {α : Type} (Q : α → Bool) (l : List α) (i : ℕ) :
    ((List.enumFrom i l).filter (fun x => Q x.2)).length = (l.filter Q).length := by
  induction l generalizing i with
  | nil => rfl
  | cons a l ih =>
      cases h : Q a <;> simp [List.enumFrom, List.filter_cons, h, ih]

/-- C2: for every parameter list and factory such that attribute projection
succeeds on every record whose factory call succeeds, generate_object_set
raises nothing to the caller; the table has exactly N - K rows, the skipped
index list has exactly K entries, and it is exactly the list of zero-based
input indices whose factory invocation raised. -/
theorem generate_object_set_partial_failure {Param Obj : Type}
    (rc : Param → Except String Obj) (ga : Obj → String → Option PyVal)
    (attrs : List String) (ps : List Param)
    (hproj : ∀ p ∈ ps, projectionOk ga attrs (rc p) = true) :
    ∃ out, generate_object_set rc ga attrs ps none = Except.ok out
      ∧ out.table.rows.length = ps.length - (failedIndices rc ps).length
      ∧ out.skipped_indices.length = (failedIndices rc ps).length
      ∧ out.skipped_indices = failedIndices rc ps := by
  obtain ⟨h1, h2, h3⟩ := genLoop_spec rc ga attrs ps 0 hproj
  have hK : (failedIndices rc ps).length
      = (ps.filter (fun p => !(exceptOk (rc p)))).length := by
    rw [failedIndices, List.length_map]
    exact enumFrom_filter_snd_length (fun p => !(exceptOk (rc p))) ps 0
  have hNK : (ps.filter (fun p => exceptOk (rc p))).length
      = ps.length - (failedIndices rc ps).length := by
    have := filter_not_length (fun p => exceptOk (rc p)) ps
    omega
  refine ⟨⟨(genLoop rc ga attrs ps 0).1, ⟨attrs, (genLoop rc ga attrs ps 0).2.1⟩,
    (genLoop rc ga attrs ps 0).2.2⟩, rfl, ?_, ?_, ?_⟩
  · exact h2.trans hNK
  · rw [h1]
    rfl
  · exact h1

/-- A concrete factory for witness runs: raises exactly on input 1. -/
def rcW (n : ℕ) : Except String ℕ := if n = 1 then Except.error "boom" else Except.ok n

/-- A concrete attribute surface for witness runs: objects expose exactly
the attribute "x", holding their numeric value. -/
def gaW (obj : ℕ) (a : String) : Option PyVal :=
  if a = "x" then some (PyVal.num obj) else none

/-- Witness for C2: records [5, 1, 7] under a factory raising exactly on
value 1 (input index 1) satisfy the projection hypothesis, and the claim
instantiates with N = 3, K = 1. -/
theorem generate_object_set_partial_failure_witness :
    (∀ p ∈ [5, 1, 7], projectionOk gaW ["x"] (rcW p) = true)
    ∧ failedIndices rcW [5, 1, 7] = [1]
    ∧ ∃ out, generate_object_set rcW gaW ["x"] [5, 1, 7] none = Except.ok out
        ∧ out.table.rows.length = [5, 1, 7].length - (failedIndices rcW [5, 1, 7]).length
        ∧ out.skipped_indices.length = (failedIndices rcW [5, 1, 7]).length
        ∧ out.skipped_indices = failedIndices rcW [5, 1, 7] :=
  ⟨by decide, by decide,
   generate_object_set_partial_failure rcW gaW ["x"] [5, 1, 7] (by decide)⟩

/-- C4 failing run: the factory succeeds on the single record 5 but the
requested attribute "y" is missing on the instance.  The source appends
the instance to object_set before projecting, and the projection failure
only skips the table row: the outcome has one produced object, zero table
rows, and skipped index 0 — the skipped index contributed an object, and
the produced count differs from the table row count. -/
theorem generate_object_set_projection_failure_keeps_object :
    ∃ out, generate_object_set (fun n : ℕ => Except.ok n) gaW ["y"] [5] none
        = Except.ok out
      ∧ out.obj_set = [5]
      ∧ out.table.rows = []
      ∧ out.skipped_indices = [0]
      ∧ out.obj_set.length ≠ out.table.rows.length :=
  ⟨⟨[5], ⟨["y"], []⟩, [0]⟩, rfl, rfl, rfl, rfl, by decide⟩

/-- C6 counterexample: records [5, 1] under a factory raising on value 1,
with the two-entry weight list attached, produce a one-row table; the
`value_fn` column assignment then raises a pandas length-mismatch error,
so generation does not complete when records were skipped. -/
theorem generate_object_set_value_fn_skip_counterexample :
    generate_object_set rcW gaW ["x"] [5, 1] (some [PyVal.num 3, PyVal.num 4])
      = Except.error "ValueError: Length of values does not match length of index" := by
  rfl

/-- C6 (amended): generation with no weight list attached always completes
and returns the producible outcome with an explicit skip list; with a
weight list attached it completes exactly when the list has one entry per
produced table row (in particular whenever nothing is skipped), gaining a
final column named value_fn aligned with the table by row position;
when skipped records leave the attached weight list longer than the
table, the column assignment raises a length-mismatch error instead. -/
theorem generate_object_set_value_fn {Param Obj : Type}
    (rc : Param → Except String Obj) (ga : Obj → String → Option PyVal)
    (attrs : List String) (ps : List Param) (vf : List PyVal) :
    (∃ out, generate_object_set rc ga attrs ps none = Except.ok out)
    ∧ (vf.length = (genLoop rc ga attrs ps 0).2.1.length →
        generate_object_set rc ga attrs ps (some vf)
          = Except.ok ⟨(genLoop rc ga attrs ps 0).1,
              ⟨attrs ++ ["value_fn"],
               ((genLoop rc ga attrs ps 0).2.1.zip vf).map (fun rv => rv.1 ++ [rv.2])⟩,
              (genLoop rc ga attrs ps 0).2.2⟩)
    ∧ (vf.length ≠ (genLoop rc ga attrs ps 0).2.1.length →
        generate_object_set rc ga attrs ps (some vf)
          = Except.error "ValueError: Length of values does not match length of index") := by
  refine ⟨⟨_, rfl⟩, fun h => ?_, fun h => ?_⟩
  · simp only [generate_object_set, df_assign_column, if_pos h]
    rfl
  · simp only [generate_object_set, df_assign_column, if_neg h]
    rfl

/-- Witness for C6: records [5, 7] (nothing skipped) with the two-entry
weight list [3, 4] complete and yield the value_fn column aligned with the
two table rows; the mismatched three-entry list raises instead. -/
theorem generate_object_set_value_fn_witness :
    (generate_object_set rcW gaW ["x"] [5, 7] (some [PyVal.num 3, PyVal.num 4])
      = Except.ok ⟨[5, 7],
          ⟨["x", "value_fn"],
           [[PyVal.num 5, PyVal.num 3], [PyVal.num 7, PyVal.num 4]]⟩, []⟩)
    ∧ (generate_object_set rcW gaW ["x"] [5, 7]
        (some [PyVal.num 3, PyVal.num 4, PyVal.num 9])
      = Except.error "ValueError: Length of values does not match length of index") := by
  constructor
  · have h := (generate_object_set_value_fn rcW gaW ["x"] [5, 7]
      [PyVal.num 3, PyVal.num 4]).2.1 (by decide)
    rw [h]
    rfl
  · exact (generate_object_set_value_fn rcW gaW ["x"] [5, 7]
      [PyVal.num 3, PyVal.num 4, PyVal.num 9]).2.2 (by decide)

/-- C5 failing run: with input records [1, 5, 6] and a factory raising on
value 1, the generated table holds the rows of records 5 and 6 at table
positions 0 and 1 (their original input positions are 1 and 2).  Reducing
with a query matching the row of record 5 deletes param_list[0] — the
already-skipped record 1 — so record 5 survives the reduction and the
regenerated table still contains its matching row. -/
theorem reduce_design_space_misaligned_after_skip :
    ∃ res, reduce_design_space rcW gaW ["x"] [1, 5, 6] none
        ⟨["x"], [[PyVal.num 5], [PyVal.num 6]]⟩
        (fun row => pyEq (row.getD 0 PyVal.nan) (PyVal.num 5))
      = Except.ok res
      ∧ res.1 = [5, 6]
      ∧ (5 : ℕ) ∈ res.1
      ∧ [PyVal.num 5] ∈ res.2.2.table.rows :=
  ⟨([5, 6], none, ⟨[5, 6], ⟨["x"], [[PyVal.num 5], [PyVal.num 6]]⟩, []⟩),
   rfl, rfl, by decide, by decide⟩

/-!
VerifiedObjectLibrary (sets.py lines 198-360).

`check_error` re-indexes both tables by the lookup column and walks the
generated table; `error_report` aggregates per column.  A key-indexed
frame (after `set_index`) is modelled by `KeyedDF`.  `.loc[key, col]` is
modelled as first-match lookup — pandas semantics for unique keys
(duplicate keys give undefined row selection in the source).  Python
`max`/`min`/`sum`/`abs` on column values raise TypeError on mixed
string/number data, modelled with `Except`; numpy integer division 0/0
yields NaN (a warning, not an exception).
-/

/-- A DataFrame after `set_index`: the key column moved into the index. -/
structure KeyedDF where
  index : List PyVal
  cols : List String
  rows : List (List PyVal)
deriving DecidableEq, Repr

/-- Model of `df.set_index(key)`: raises KeyError when the key column is
absent, otherwise moves it out of the column list into the index. -/
def DF.set_index (df : DF) (key : String) : Except String KeyedDF :=
  match df.cols.indexOf? key with
  | none => Except.error "KeyError"
  | some k => Except.ok ⟨df.rows.map (fun r => r.getD k PyVal.nan),
      df.cols.eraseIdx k, df.rows.map (fun r => r.eraseIdx k)⟩

/-- Model of `df.loc[key, col]` on a key-indexed frame: the cell of the
first row whose index equals the key (unique keys assumed, as in the
source). -/
def KeyedDF.lookup (df : KeyedDF) (key : PyVal) (c : String) : PyVal :=
  match df.index.indexOf? key, df.cols.indexOf? c with
  | some r, some k => (df.rows.getD r []).getD k PyVal.nan
  | _, _ => PyVal.nan

/-- One cell of `check_error` (sets.py lines 233-244), for a key present
in the verification index: a column missing from the verification table
gives NaN; otherwise the values are guarded by the (vacuous) `== np.nan`
test and passed to error_calc. -/
def check_error_cell (lib verify : KeyedDF) (i : PyVal) (param : String) :
    Except String PyVal :=
  if verify.cols.contains param then
    let verify_value := verify.lookup i param
    let generated_value := lib.lookup i param
    if pyEq verify_value PyVal.nan || pyEq generated_value PyVal.nan then
      Except.ok PyVal.nan
    else
      error_calc generated_value verify_value
  else
    Except.ok PyVal.nan

/-- One row of `check_error` (sets.py lines 231-247): a key absent from
the verification index yields an all-NaN row. -/
def check_error_row (lib verify : KeyedDF) (i : PyVal) :
    Except String (List PyVal) :=
  if verify.index.contains i then
    lib.cols.mapM (check_error_cell lib verify i)
  else
    Except.ok (lib.cols.map (fun _ => PyVal.nan))

/-- Model of `VerifiedObjectLibrary.check_error` (sets.py lines 217-249)
on the two key-indexed frames, before the final reset_index. -/
def check_error (lib verify : KeyedDF) : Except String KeyedDF := do
  let rows ← lib.index.mapM (check_error_row lib verify)
  Except.ok ⟨lib.index, lib.cols, rows⟩

/-- Model of `df.reset_index()`: the index becomes the leading column,
named after the lookup column it came from, and rows are relabelled
positionally. -/
def KeyedDF.reset_index (df : KeyedDF) (idxName : String) : DF :=
  ⟨idxName :: df.cols, (df.index.zip df.rows).map (fun kr => kr.1 :: kr.2)⟩

/-- Column access `df[c]` as a value list (every column accessed by
`error_report` exists, so the missing-column KeyError path is never
taken). -/
def DF.col (df : DF) (c : String) : List PyVal :=
  match df.cols.indexOf? c with
  | none => []
  | some k => df.rows.map (fun r => r.getD k PyVal.nan)

/-- The classification test of sets.py line 281,
`type(result_df[param][0]) is str`: the value at row position 0 of the
per-cell result column — not the first non-missing value. -/
def is_str_col (col : List PyVal) : Bool :=
  match col.head? with
  | some v => isStr v
  | none => false

/-- Python comparison `a < b` on cell values: numbers and strings compare
within their own kind, NaN comparisons are False, and comparing a string
with a number raises TypeError. -/
def pyCompareLt : PyVal → PyVal → Except String Bool
  | PyVal.num a, PyVal.num b => Except.ok (decide (a < b))
  | PyVal.str a, PyVal.str b => Except.ok (decide (a < b))
  | PyVal.nan, PyVal.num _ => Except.ok false
  | PyVal.num _, PyVal.nan => Except.ok false
  | PyVal.nan, PyVal.nan => Except.ok false
  | _, _ => Except.error "TypeError: comparison of str and float"

/-- Python `max(values)` over a column: the running maximum, raising on a
string/number comparison. -/
def pyMax : List PyVal → Except String PyVal
  | [] => Except.error "ValueError: max of empty sequence"
  | v :: vs => vs.foldlM (fun acc x => do
      let b ← pyCompareLt acc x
      pure (if b then x else acc)) v

/-- Python `min(values)` over a column. -/
def pyMin : List PyVal → Except String PyVal
  | [] => Except.error "ValueError: min of empty sequence"
  | v :: vs => vs.foldlM (fun acc x => do
      let b ← pyCompareLt x acc
      pure (if b then x else acc)) v

/-- Python `+` for the accumulating `sum`: number plus number, NaN
propagates, adding a string to a number raises TypeError. -/
def pyAdd : PyVal → PyVal → Except String PyVal
  | PyVal.num a, PyVal.num b => Except.ok (PyVal.num (a + b))
  | PyVal.num _, PyVal.nan => Except.ok PyVal.nan
  | PyVal.nan, PyVal.num _ => Except.ok PyVal.nan
  | PyVal.nan, PyVal.nan => Except.ok PyVal.nan
  | _, _ => Except.error "TypeError: unsupported operand type for +"

/-- Python `sum(values)`: a left fold starting from the integer 0. -/
def pySum (l : List PyVal) : Except String PyVal := l.foldlM pyAdd (PyVal.num 0)

/-- Python `abs` on one cell value: raises TypeError on a string. -/
def pyAbs : PyVal → Except String PyVal
  | PyVal.num a => Except.ok (PyVal.num |a|)
  | PyVal.nan => Except.ok PyVal.nan
  | _ => Except.error "TypeError: bad operand type for abs"

/-- Division of an accumulated sum by a (positive) element count. -/
def pyDivNat : PyVal → ℕ → Except String PyVal
  | PyVal.num a, n => Except.ok (PyVal.num (a / (n : ℚ)))
  | PyVal.nan, _ => Except.ok PyVal.nan
  | _, _ => Except.error "TypeError: unsupported operand type for div"

/-- The numeric-branch statistics of `error_report` (sets.py lines
294-301), in source evaluation order: max, sum and average, absolute
average, min over the non-missing cells. -/
def numeric_stats (nonmissing : List PyVal) :
    Except String (PyVal × PyVal × PyVal × PyVal) := do
  let mx ← pyMax nonmissing
  let s ← pySum nonmissing
  let avg ← pyDivNat s nonmissing.length
  let absvals ← nonmissing.mapM pyAbs
  let s2 ← pySum absvals
  let avgabs ← pyDivNat s2 nonmissing.length
  let mn ← pyMin nonmissing
  Except.ok (mx, avg, avgabs, mn)

/-- One row of the per-column verification report. -/
structure ReportRow where
  parameter : String
  checked : String
  coverage : PyVal
  max_error : PyVal
  avg_error : PyVal
  avg_abs_error : PyVal
  min_error : PyVal
  str_error : PyVal
deriving DecidableEq, Repr

/-- One parameter row of `error_report` (sets.py lines 273-320): columns
absent from the verification table report "no" with NaN statistics;
otherwise coverage is the non-missing share (ZeroDivisionError on an
empty generated table), and the branch is chosen by `is_str_col` on the
per-cell result column.  The 0/0 match-rate division is numpy integer
division and yields NaN. -/
def report_row_checked (lib result : DF) (param : String) :
    Except String ReportRow :=
  if lib.rows.length = 0 then
      Except.error "ZeroDivisionError: division by zero"
    else
      let colvals := result.col param
      let nonmissing := colvals.filter (fun v => v != PyVal.nan)
      let coverage := round2 ((nonmissing.length : ℚ) / (lib.rows.length : ℚ) * 100)
      if is_str_col colvals then
        let matched := (colvals.filter (fun v => v == PyVal.str "match")).length
        let not_matched := (colvals.filter (fun v => v == PyVal.str "not match")).length
        let str_error : PyVal :=
          if matched + not_matched = 0 then PyVal.nan
          else PyVal.num ((1 - (matched : ℚ) / ((matched : ℚ) + (not_matched : ℚ))) * 100)
        Except.ok ⟨param, "yes", PyVal.num coverage, PyVal.str "N/A", PyVal.str "N/A",
          PyVal.str "N/A", PyVal.str "N/A", str_error⟩
      else
        if nonmissing.length > 0 then do
          let stats ← numeric_stats nonmissing
          Except.ok ⟨param, "yes", PyVal.num coverage, stats.1, stats.2.1,
            stats.2.2.1, stats.2.2.2, PyVal.str "N/A"⟩
        else
          Except.ok ⟨param, "yes", PyVal.num coverage, PyVal.str "N/A", PyVal.str "N/A",
            PyVal.str "N/A", PyVal.str "N/A", PyVal.str "N/A"⟩

/-- One parameter row of `error_report`: the check on membership of the
column in the verification table (sets.py lines 274 and 313-320),
dispatching to the checked branch above or the all-NaN "no" row. -/
def report_row (lib verify result : DF) (param : String) :
    Except String ReportRow :=
  if verify.cols.contains param then
    report_row_checked lib result param
  else
    Except.ok ⟨param, "no", PyVal.nan, PyVal.nan, PyVal.nan, PyVal.nan,
      PyVal.nan, PyVal.nan⟩

/-- Model of `VerifiedObjectLibrary.error_report` (sets.py lines 251-330):
one report row per column of the original generated table, in column
order. -/
def error_report (lib verify result : DF) : Except String (List ReportRow) :=
  lib.cols.mapM (report_row lib verify result)

/-- Model of the `VerifiedObjectLibrary` constructor (sets.py lines
213-215): check_error over the key-indexed frames, reset the result
index, then build the report. -/
def verified_object_library (object_library verification_library : DF)
    (lookup_index : String) : Except String (DF × List ReportRow) := do
  let lib ← object_library.set_index lookup_index
  let verify ← verification_library.set_index lookup_index
  let errk ← check_error lib verify
  let result := errk.reset_index lookup_index
  let report ← error_report object_library verification_library result
  Except.ok (result, report)

/-- Modelled from the spec: the classification sample §4.3 describes — the
first non-missing per-cell result value of a column, missing cells passed
over — for comparison against the code's `is_str_col`. -/
def spec_first_non_missing (col : List PyVal) : Option PyVal :=
  (col.filter (fun v => v != PyVal.nan)).head?

/-- C3: error_calc satisfies the spec case analysis: a string generated
value yields "match" exactly on exact (case-sensitive) equality with the
reference; a zero reference yields 0 on equality and 100 for any nonzero
numeric generated value; otherwise the signed percentage error rounded to
3 decimals; with the four quoted concrete instances. -/
theorem error_calc_spec :
    (∀ s v, error_calc (PyVal.str s) v
        = Except.ok (if PyVal.str s = v then PyVal.str "match"
                     else PyVal.str "not match"))
    ∧ (∀ x : ℚ, error_calc (PyVal.num x) (PyVal.num 0)
        = Except.ok (if x = 0 then PyVal.num 0 else PyVal.num 100))
    ∧ (∀ x y : ℚ, y ≠ 0 → error_calc (PyVal.num x) (PyVal.num y)
        = Except.ok (PyVal.num (round3 ((x - y) / y * 100))))
    ∧ error_calc (PyVal.num 110) (PyVal.num 100) = Except.ok (PyVal.num 10)
    ∧ error_calc (PyVal.num 90) (PyVal.num 100) = Except.ok (PyVal.num (-10))
    ∧ error_calc (PyVal.num 5) (PyVal.num 0) = Except.ok (PyVal.num 100)
    ∧ error_calc (PyVal.num 0) (PyVal.num 0) = Except.ok (PyVal.num 0) := by
  have estr : ∀ s v, error_calc (PyVal.str s) v
      = Except.ok (if pyEq (PyVal.str s) v then PyVal.str "match"
                   else PyVal.str "not match") := fun s v => rfl
  have edef : ∀ x y : ℚ, error_calc (PyVal.num x) (PyVal.num y)
      = if pyEq (PyVal.num y) (PyVal.num 0)
        then Except.ok (if pyEq (PyVal.num y) (PyVal.num x) then PyVal.num 0
                        else PyVal.num (x / x * 100))
        else Except.ok (PyVal.num (round3 ((x - y) / y * 100))) := fun x y => rfl
  have hpyEq : ∀ a b : ℚ, pyEq (PyVal.num a) (PyVal.num b) = decide (a = b) := by
    intro a b
    show (a == b) = decide (a = b)
    by_cases h : a = b
    · simp [h]
    · simp [h]
  have hstr : ∀ s v, error_calc (PyVal.str s) v
      = Except.ok (if PyVal.str s = v then PyVal.str "match"
                   else PyVal.str "not match") := by
    intro s v
    rw [estr s v]
    congr 1
    refine if_congr ?_ rfl rfl
    cases v with
    | str t => simp [pyEq]
    | num q => simp [pyEq]
    | nan => simp [pyEq]
  have hzero : ∀ x : ℚ, error_calc (PyVal.num x) (PyVal.num 0)
      = Except.ok (if x = 0 then PyVal.num 0 else PyVal.num 100) := by
    intro x
    rw [edef x 0, hpyEq, hpyEq]
    rw [if_pos (by simp)]
    by_cases h : x = 0
    · rw [if_pos (by simp [h]), if_pos h]
    · rw [if_neg (by simpa using Ne.symm h), if_neg h, div_self h, one_mul]
  have helse : ∀ x y : ℚ, y ≠ 0 → error_calc (PyVal.num x) (PyVal.num y)
      = Except.ok (PyVal.num (round3 ((x - y) / y * 100))) := by
    intro x y hy
    rw [edef x y, hpyEq, if_neg (by simpa using hy)]
  refine ⟨hstr, hzero, helse, ?_, ?_, ?_, ?_⟩
  · rw [helse 110 100 (by norm_num)]
    norm_num [round3]
  · rw [helse 90 100 (by norm_num)]
    have h2 : round ((-10000 : ℚ)) = -10000 := by
      rw [show ((-10000 : ℚ)) = ((-10000 : ℤ) : ℚ) by norm_num, round_intCast]
    norm_num [round3, h2]
  · rw [hzero 5]
    norm_num
  · rw [hzero 0]
    norm_num

/-- Witness for C3: the string branch at equal strings and the signed
percentage branch at (110, 100). -/
theorem error_calc_spec_witness :
    error_calc (PyVal.str "A") (PyVal.str "A") = Except.ok (PyVal.str "match")
    ∧ error_calc (PyVal.num 110) (PyVal.num 100)
        = Except.ok (PyVal.num (round3 ((110 - 100) / 100 * 100))) := by
  constructor
  · have h := error_calc_spec.1 "A" (PyVal.str "A")
    simpa using h
  · exact error_calc_spec.2.2.1 110 100 (by norm_num)

theorem mapM_ok_forall₂ {α β : Type} (f : α → Except String β) :
    ∀ (l : List α) (ys : List β), l.mapM f = Except.ok ys →
      List.Forall₂ (fun a b => f a = Except.ok b) l ys := by
  intro l
  induction l with
  | nil =>
      intro ys h
      simp only [List.mapM_nil, pure, Except.pure, Except.ok.injEq] at h
      subst h
      exact List.Forall₂.nil
  | cons a l ih =>
      intro ys h
      simp only [List.mapM_cons, bind, Except.bind] at h
      cases hfa : f a with
      | error e => rw [hfa] at h; simp at h
      | ok b =>
          rw [hfa] at h
          cases hml : l.mapM f with
          | error e => rw [hml] at h; simp at h
          | ok bs =>
              rw [hml] at h
              simp only [pure, Except.pure, Except.ok.injEq] at h
              subst h
              exact List.Forall₂.cons hfa (ih bs hml)

theorem forall₂_getElem? {α β : Type} {R : α → β → Prop} {l₁ : List α} {l₂ : List β}
    (h : List.Forall₂ R l₁ l₂) {r : ℕ} {a : α} (ha : l₁[r]? = some a) :
    ∃ b, l₂[r]? = some b ∧ R a b := by
  have hlen := h.length_eq
  have hr : r < l₁.length := by
    by_contra hc
    rw [List.getElem?_eq_none (by omega)] at ha
    exact Option.noConfusion ha
  have hr2 : r < l₂.length := by omega
  refine ⟨l₂.get ⟨r, hr2⟩, ?_, ?_⟩
  · rw [List.getElem?_eq_getElem hr2, List.get_eq_getElem]
  · have hrel := (List.forall₂_iff_get.mp h).2 r hr hr2
    have ha2 : l₁.get ⟨r, hr⟩ = a := by
      rw [List.get_eq_getElem]
      rw [List.getElem?_eq_getElem hr] at ha
      exact Option.some.inj ha
    rwa [ha2] at hrel

/-- C9: in the per-cell result, a key absent from the reference index
yields an all-NaN row, and a column absent from the reference columns
yields a NaN cell (NaN, which is not the number 0, in either case); in the
per-column report, a column absent from the reference table reports
checked = "no" with all statistic fields NaN. -/
theorem check_error_missing_reference (lib verify res : KeyedDF)
    (hres : check_error lib verify = Except.ok res) :
    res.index = lib.index
    ∧ res.cols = lib.cols
    ∧ (∀ (r : ℕ) (k : PyVal), lib.index[r]? = some k →
        verify.index.contains k = false →
        res.rows[r]? = some (lib.cols.map (fun _ => PyVal.nan)))
    ∧ (∀ (r j : ℕ) (k : PyVal) (param : String) (row : List PyVal),
        lib.index[r]? = some k →
        lib.cols[j]? = some param → verify.cols.contains param = false →
        res.rows[r]? = some row → row[j]? = some PyVal.nan)
    ∧ PyVal.nan ≠ PyVal.num 0
    ∧ (∀ (libdf verifydf resultdf : DF) (param : String),
        verifydf.cols.contains param = false →
        report_row libdf verifydf resultdf param
          = Except.ok ⟨param, "no", PyVal.nan, PyVal.nan, PyVal.nan, PyVal.nan,
              PyVal.nan, PyVal.nan⟩) := by
  have erow : ∀ i, check_error_row lib verify i
      = if verify.index.contains i
        then lib.cols.mapM (check_error_cell lib verify i)
        else Except.ok (lib.cols.map (fun _ => PyVal.nan)) := fun i => rfl
  have ecell : ∀ i param, check_error_cell lib verify i param
      = if verify.cols.contains param
        then (if pyEq (verify.lookup i param) PyVal.nan
                || pyEq (lib.lookup i param) PyVal.nan
              then Except.ok PyVal.nan
              else error_calc (lib.lookup i param) (verify.lookup i param))
        else Except.ok PyVal.nan := fun i param => rfl
  cases hm : lib.index.mapM (check_error_row lib verify) with
  | error e =>
      rw [check_error, hm] at hres
      simp [Bind.bind, Except.bind] at hres
  | ok rows =>
      rw [check_error, hm] at hres
      simp only [Bind.bind, Except.bind, pure, Except.pure, Except.ok.injEq] at hres
      subst hres
      have hf := mapM_ok_forall₂ (check_error_row lib verify) lib.index rows hm
      refine ⟨rfl, rfl, ?_, ?_, by simp, ?_⟩
      · intro r k hk hnc
        obtain ⟨row, hrow, hrel⟩ := forall₂_getElem? hf hk
        rw [erow k, if_neg (by rw [hnc]; simp)] at hrel
        rw [hrow]
        exact congrArg some (Except.ok.inj hrel).symm
      · intro r j k param row hk hj hnc hrow
        obtain ⟨row2, hrow2, hrel⟩ := forall₂_getElem? hf hk
        have hroweq : row2 = row := by
          rw [hrow] at hrow2
          exact (Option.some.inj hrow2).symm
        subst hroweq
        rw [erow k] at hrel
        by_cases hc : verify.index.contains k = true
        · rw [if_pos hc] at hrel
          have hf2 := mapM_ok_forall₂ (check_error_cell lib verify k) lib.cols row2 hrel
          obtain ⟨v, hv, hvrel⟩ := forall₂_getElem? hf2 hj
          rw [ecell k param, if_neg (by rw [hnc]; simp)] at hvrel
          rw [hv, Option.some.injEq]
          exact (Except.ok.inj hvrel).symm
        · rw [if_neg hc] at hrel
          have hrow2 : row2 = lib.cols.map (fun _ => PyVal.nan) :=
            (Except.ok.inj hrel).symm
          subst hrow2
          have hjlen : j < lib.cols.length := by
            by_contra hcj
            rw [List.getElem?_eq_none (by omega)] at hj
            exact Option.noConfusion hj
          rw [List.getElem?_map, List.getElem?_eq_getElem hjlen]
          rfl
      · intro libdf verifydf resultdf param hnc
        have erep : report_row libdf verifydf resultdf param
            = if verifydf.cols.contains param
              then report_row_checked libdf resultdf param
              else Except.ok ⟨param, "no", PyVal.nan, PyVal.nan, PyVal.nan,
                PyVal.nan, PyVal.nan, PyVal.nan⟩ := rfl
        rw [erep, if_neg (by rw [hnc]; simp)]

/-- Concrete key-indexed generated frame for verification witnesses. -/
def kLibW : KeyedDF :=
  ⟨[PyVal.str "a", PyVal.str "b"], ["p", "q"],
   [[PyVal.str "A", PyVal.num 20], [PyVal.str "B", PyVal.num 40]]⟩

/-- Concrete key-indexed reference frame with key "a" and column "q"
absent. -/
def kVerW : KeyedDF := ⟨[PyVal.str "b"], ["p"], [[PyVal.str "B"]]⟩

/-- The per-cell result of check_error on the two concrete frames: key "a"
gives an all-NaN row, and column "q" gives NaN in the row of key "b". -/
def kResW : KeyedDF :=
  ⟨[PyVal.str "a", PyVal.str "b"], ["p", "q"],
   [[PyVal.nan, PyVal.nan], [PyVal.str "match", PyVal.nan]]⟩

/-- Witness for C9 on the concrete frames: the absent key row is all-NaN,
the absent column cell is NaN, and an absent column reports "no" with NaN
statistics. -/
theorem check_error_missing_reference_witness :
    kResW.rows[0]? = some (kLibW.cols.map (fun _ => PyVal.nan))
    ∧ [PyVal.str "match", PyVal.nan][1]? = some PyVal.nan
    ∧ report_row ⟨["k"], []⟩ ⟨["k"], []⟩ ⟨["k"], []⟩ "absent"
        = Except.ok ⟨"absent", "no", PyVal.nan, PyVal.nan, PyVal.nan, PyVal.nan,
            PyVal.nan, PyVal.nan⟩ := by
  have h := check_error_missing_reference kLibW kVerW kResW rfl
  refine ⟨?_, ?_, ?_⟩
  · exact h.2.2.1 0 (PyVal.str "a") (by decide) (by decide)
  · exact h.2.2.2.1 1 1 (PyVal.str "b") "q" [PyVal.str "match", PyVal.nan]
      (by decide) (by decide) (by decide) (by decide)
  · exact h.2.2.2.2.2 ⟨["k"], []⟩ ⟨["k"], []⟩ ⟨["k"], []⟩ "absent" (by decide)

/-- C10: the NaN guard of check_error compares with ==, which is false for
every value compared against NaN (NaN itself included), so for a key and
column present in both tables the cell is always passed to error_calc;
consequently a string generated value paired with a NaN reference value
yields "not match", not the missing marker. -/
theorem check_error_nan_guard_vacuous :
    (∀ v : PyVal, pyEq v PyVal.nan = false)
    ∧ (∀ (lib verify : KeyedDF) (i : PyVal) (param : String),
        verify.cols.contains param = true →
        check_error_cell lib verify i param
          = error_calc (lib.lookup i param) (verify.lookup i param))
    ∧ (∀ (lib verify : KeyedDF) (i : PyVal) (param : String) (s : String),
        verify.cols.contains param = true →
        verify.lookup i param = PyVal.nan →
        lib.lookup i param = PyVal.str s →
        check_error_cell lib verify i param
          = Except.ok (PyVal.str "not match")) := by
  have hguard : ∀ v : PyVal, pyEq v PyVal.nan = false := by
    intro v
    cases v <;> rfl
  have hcell : ∀ (lib verify : KeyedDF) (i : PyVal) (param : String),
      verify.cols.contains param = true →
      check_error_cell lib verify i param
        = error_calc (lib.lookup i param) (verify.lookup i param) := by
    intro lib verify i param hin
    have ecell : check_error_cell lib verify i param
        = if verify.cols.contains param
          then (if pyEq (verify.lookup i param) PyVal.nan
                  || pyEq (lib.lookup i param) PyVal.nan
                then Except.ok PyVal.nan
                else error_calc (lib.lookup i param) (verify.lookup i param))
          else Except.ok PyVal.nan := rfl
    rw [ecell, if_pos hin, hguard (verify.lookup i param),
      hguard (lib.lookup i param)]
    simp
  refine ⟨hguard, hcell, ?_⟩
  intro lib verify i param s hin hv hg
  rw [hcell lib verify i param hin, hg, hv]
  rfl

/-- Witness for C10: NaN is not ==-equal to itself, and on a concrete
frame whose reference cell for key "b", column "p" is NaN while the
generated value is the string "B", the per-cell result is "not match". -/
theorem check_error_nan_guard_vacuous_witness :
    pyEq PyVal.nan PyVal.nan = false
    ∧ check_error_cell kLibW ⟨[PyVal.str "b"], ["p"], [[PyVal.nan]]⟩
        (PyVal.str "b") "p" = Except.ok (PyVal.str "not match") := by
  refine ⟨check_error_nan_guard_vacuous.1 PyVal.nan, ?_⟩
  exact check_error_nan_guard_vacuous.2.2 kLibW
    ⟨[PyVal.str "b"], ["p"], [[PyVal.nan]]⟩ (PyVal.str "b") "p" "B"
    (by decide) (by decide) (by decide)

/-- C8 counterexample: for the per-cell result column [NaN, "match"] —
produced, for example, when the first generated key is absent from the
reference table and the second row matches — the first non-missing value
is the string "match", but the classification test of sets.py line 281
reads the value at row position 0, NaN, which is not a str: the column is
classified as numeric, so the classification is not determined from the
first non-missing value. -/
theorem is_str_col_first_cell_counterexample :
    spec_first_non_missing [PyVal.nan, PyVal.str "match"]
        = some (PyVal.str "match")
    ∧ is_str_col [PyVal.nan, PyVal.str "match"] = false
    ∧ verified_object_library
        ⟨["k", "p"], [[PyVal.num 1, PyVal.str "A"], [PyVal.num 2, PyVal.str "B"]]⟩
        ⟨["k", "p"], [[PyVal.num 2, PyVal.str "B"]]⟩ "k"
        = Except.error "TypeError: unsupported operand type for +" := by
  exact ⟨rfl, rfl, rfl⟩

/-- C8 (amended): for every column present in the reference table, the
textual-versus-numeric classification in the report is determined from
the per-cell result value at row position 0, whether or not that value is
missing: whenever report_row succeeds, it took the string branch — numeric
statistics "N/A" and the match-rate field not "N/A" — exactly when the
value at position 0 is a str. -/
theorem report_row_classification (lib verify result : DF) (param : String)
    (hin : verify.cols.contains param = true) (row : ReportRow)
    (hok : report_row lib verify result param = Except.ok row) :
    (row.max_error = PyVal.str "N/A" ∧ row.str_error ≠ PyVal.str "N/A")
      ↔ is_str_col (result.col param) = true := by
  have e : report_row lib verify result param
      = if verify.cols.contains param then report_row_checked lib result param
        else Except.ok ⟨param, "no", PyVal.nan, PyVal.nan, PyVal.nan, PyVal.nan,
          PyVal.nan, PyVal.nan⟩ := rfl
  rw [e, if_pos hin] at hok
  simp only [report_row_checked] at hok
  split at hok
  · exact absurd hok (by simp)
  · split at hok
    · rename_i hcls
      rw [Except.ok.injEq] at hok
      subst hok
      refine iff_of_true ⟨rfl, ?_⟩ hcls
      split
      · exact fun hcon => PyVal.noConfusion hcon
      · exact fun hcon => PyVal.noConfusion hcon
    · rename_i hcls
      rw [Bool.not_eq_true] at hcls
      split at hok
      · simp only [Bind.bind, Except.bind] at hok
        cases hst : numeric_stats ((result.col param).filter
            (fun v => v != PyVal.nan)) with
        | error e2 => rw [hst] at hok; simp at hok
        | ok stats =>
            rw [hst] at hok
            rw [Except.ok.injEq] at hok
            subst hok
            refine iff_of_false ?_ (by simp [hcls])
            rintro ⟨-, hso⟩
            exact hso rfl
      · rw [Except.ok.injEq] at hok
        subst hok
        refine iff_of_false ?_ (by simp [hcls])
        rintro ⟨-, hso⟩
        exact hso rfl

/-- A concrete one-row generated table for the C8 witness. -/
def dfLibW : DF := ⟨["k", "p"], [[PyVal.str "a", PyVal.str "A"]]⟩

/-- A concrete per-cell result whose "p" column is ["match"]: a str at row
position 0. -/
def dfResW : DF := ⟨["k", "p"], [[PyVal.str "a", PyVal.str "match"]]⟩

/-- The report row produced for column "p" of the concrete tables. -/
def rowW : ReportRow :=
  ⟨"p", "yes", PyVal.num (round2 ((1 : ℚ) / (1 : ℚ) * 100)), PyVal.str "N/A",
   PyVal.str "N/A", PyVal.str "N/A", PyVal.str "N/A",
   PyVal.num ((1 - (1 : ℚ) / ((1 : ℚ) + (0 : ℚ))) * 100)⟩

/-- Witness for C8 (amended): on the concrete tables the per-cell result
value at row position 0 of column "p" is the str "match", and the report
row indeed takes the string branch. -/
theorem report_row_classification_witness :
    report_row dfLibW dfLibW dfResW "p" = Except.ok rowW
    ∧ rowW.max_error = PyVal.str "N/A" ∧ rowW.str_error ≠ PyVal.str "N/A" := by
  refine ⟨rfl, ?_⟩
  exact (report_row_classification dfLibW dfLibW dfResW "p" rfl rowW rfl).mpr rfl

end Sbdb
